import Mathlib

/-!
Verification of `tensorflow/python/saved_model/registration.py`, a
name-based serialization registry with predicate dispatch.

The module keeps two pieces of global state:
  `_CLASS_REGISTRY`   : dict, registered name -> (predicate, class)
  `_REGISTERED_NAMES` : list of registered names, in registration order
and exposes `get_registered_name`, `get_registered_class` and the
decorator factory `register_serializable`.

We embed the state as an explicit `Registry` record threaded through
every operation, so that frame and atomicity properties are statable.
Python exceptions become `Except PyError`; Python truthiness is modelled
by a `PyVal` type with a `truthy` projection, since `get_registered_name`
branches on the truthiness of the stored predicate and of the predicate's
result, not on `is None` / `is True`.
-/

namespace Registration

/-- A Python value, as far as this module inspects one: only its
truthiness is ever consulted (`if not predicate`, `if predicate(obj)`). -/
inductive PyVal where
  | noneV
  | boolV (b : Bool)
  | intV (n : Int)
  | strV (s : String)
deriving DecidableEq

/-- Python truthiness of a `PyVal`: `None`, `False`, `0` and `""` are
falsy, everything else is truthy. -/
def PyVal.truthy : PyVal → Bool
  | PyVal.noneV => false
  | PyVal.boolV b => b
  | PyVal.intV n => decide (n ≠ 0)
  | PyVal.strV s => decide (s ≠ "")

/-- A Python class: `id` is its type identity (what `type(obj) == cls`
compares), `name` is its `__name__` attribute. -/
structure PyClass where
  id : Nat
  name : String
deriving DecidableEq

/-- A Python object instance; `ty` is the identity of `type(obj)`. -/
structure PyObj where
  ty : Nat
deriving DecidableEq

/-- The predicate slot stored in `_CLASS_REGISTRY`: either `None`, or a
callable.  A callable carries its own truthiness bit (`if not predicate`
tests the callable's truthiness, and a callable object may define
`__bool__`) and the function it computes, returning an arbitrary
`PyVal` whose truthiness decides the match. -/
inductive StoredPred where
  | nonePred
  | callable (truthy : Bool) (fn : PyObj → PyVal)

/-- Truthiness of a stored predicate slot: `None` is falsy, a callable
has its own truthiness bit. -/
def StoredPred.isTruthy : StoredPred → Bool
  | StoredPred.nonePred => false
  | StoredPred.callable t _ => t

/-- Calling the stored predicate (only reached by the source when the
slot is truthy, hence a callable). -/
def StoredPred.call : StoredPred → PyObj → PyVal
  | StoredPred.nonePred, _ => PyVal.noneV
  | StoredPred.callable _ f, obj => f obj

/-- The exceptions this module can raise.  In the source all four are
Python exceptions: the first two are the spec's `InvalidArgument`
(`ValueError`s raised by `register_serializable`), the third is the
spec's `DuplicateRegistration` (a `ValueError` whose message formats the
conflicting name and the existing `(predicate, class)` entry), and
`keyError` is Python's `KeyError` from an unchecked dict subscript. -/
inductive PyError where
  | invalidPredicate
  | notAClass (objRepr : String)
  | duplicateRegistration (registered_name : String) (predicate : StoredPred) (cls : PyClass)
  | keyError (key : String)

/-- The registry's global state: `classRegistry` models the dict
`_CLASS_REGISTRY` as an insertion-ordered association list with unique
keys, `registeredNames` models the list `_REGISTERED_NAMES`. -/
structure Registry where
  classRegistry : List (String × StoredPred × PyClass)
  registeredNames : List String

/-- The state at module load: `_CLASS_REGISTRY = {}`,
`_REGISTERED_NAMES = []`. -/
def emptyRegistry : Registry := ⟨[], []⟩

/-- Dict subscript `_CLASS_REGISTRY[name]` as lookup in the association
list (keys are unique in every reachable state). -/
def lookup : List (String × StoredPred × PyClass) → String → Option (StoredPred × PyClass)
  | [], _ => Option.none
  | (k, v) :: rest, n => if k = n then Option.some v else lookup rest n

/-- Whether one entry of the registry matches an instance: the
disjunction of the two `if` conditions in the loop body of
`get_registered_name`. -/
def entryMatch (e : StoredPred × PyClass) (obj : PyObj) : Bool :=
  (!(StoredPred.isTruthy e.1) && decide (obj.ty = e.2.id)) ||
  (StoredPred.isTruthy e.1 && PyVal.truthy (StoredPred.call e.1 obj))

/-- The loop of `get_registered_name`, over an explicit list of names
(called on `reversed(_REGISTERED_NAMES)`).  Each iteration subscripts
`_CLASS_REGISTRY[name]` (KeyError if absent), then tests
`if not predicate and type(obj) == cls` and
`if predicate and predicate(obj)`, returning `name` on the first hit;
falling off the loop returns `None`. -/
def get_registered_name_run :
    List String → Registry → PyObj → Registry × Except PyError (Option String)
  | [], st, _ => (st, Except.ok Option.none)
  | nm :: rest, st, obj =>
    match lookup st.classRegistry nm with
    | Option.none => (st, Except.error (PyError.keyError nm))
    | Option.some pc =>
      if !(StoredPred.isTruthy pc.1) && decide (obj.ty = pc.2.id) then
        (st, Except.ok (Option.some nm))
      else if StoredPred.isTruthy pc.1 && PyVal.truthy (StoredPred.call pc.1 obj) then
        (st, Except.ok (Option.some nm))
      else
        get_registered_name_run rest st obj

/-- The function `get_registered_name(obj)`: scan `_REGISTERED_NAMES`
in reverse. -/
def get_registered_name (st : Registry) (obj : PyObj) :
    Registry × Except PyError (Option String) :=
  get_registered_name_run st.registeredNames.reverse st obj

/-- The `try` body of `get_registered_class`:
`_CLASS_REGISTRY[registered_name][1]`. -/
def get_registered_class_run (st : Registry) (registered_name : String) :
    Except PyError PyClass :=
  match lookup st.classRegistry registered_name with
  | Option.some pc => Except.ok pc.2
  | Option.none => Except.error (PyError.keyError registered_name)

/-- The function `get_registered_class(registered_name)`: the subscript
wrapped in `try ... except KeyError: return None`. -/
def get_registered_class (st : Registry) (registered_name : String) :
    Registry × Except PyError (Option PyClass) :=
  match get_registered_class_run st registered_name with
  | Except.ok c => (st, Except.ok (Option.some c))
  | Except.error (PyError.keyError _) => (st, Except.ok Option.none)
  | Except.error e => (st, Except.error e)

/-- The argument a decorator is applied to: either a class (accepted by
`tf_inspect.isclass`) or anything else (its repr, for the error
message). -/
inductive PyArg where
  | cls (c : PyClass)
  | notClass (objRepr : String)

/-- The `predicate` argument of `register_serializable`: `None`, a
callable, or a non-None non-callable value (rejected by validation). -/
inductive PyPredArg where
  | nonePred
  | callable (truthy : Bool) (fn : PyObj → PyVal)
  | notCallable (v : PyVal)

/-- The injection of valid (storable) predicates into the argument
type. -/
def ofStored : StoredPred → PyPredArg
  | StoredPred.nonePred => PyPredArg.nonePred
  | StoredPred.callable t f => PyPredArg.callable t f

/-- The inner `decorator(arg)` of `register_serializable`: reject a
non-class, build `registered_name = package + "." + class_name` (with
`class_name = name if name is not None else arg.__name__`), reject a
duplicate name (reporting the existing entry), otherwise insert into
`_CLASS_REGISTRY` and append to `_REGISTERED_NAMES`, returning `arg`.
Every `raise` in the source occurs before any mutation, which is why the
error branches return the input state unchanged. -/
def decorator (package : String) (name : Option String) (predicate : StoredPred)
    (arg : PyArg) (st : Registry) : Registry × Except PyError PyClass :=
  match arg with
  | PyArg.notClass r => (st, Except.error (PyError.notAClass r))
  | PyArg.cls c =>
    let class_name := name.getD c.name
    let registered_name := package ++ "." ++ class_name
    match lookup st.classRegistry registered_name with
    | Option.some pc =>
      (st, Except.error (PyError.duplicateRegistration registered_name pc.1 pc.2))
    | Option.none =>
      (⟨st.classRegistry ++ [(registered_name, (predicate, c))],
        st.registeredNames ++ [registered_name]⟩,
       Except.ok c)

/-- Applying `register_serializable(package, name, predicate)` to
`arg`: the factory first validates
`predicate is not None and not callable(predicate)` (raising before the
decorator ever runs), then the decorator body executes on `arg`. -/
def register_apply (package : String) (name : Option String) (predicate : PyPredArg)
    (arg : PyArg) (st : Registry) : Registry × Except PyError PyClass :=
  match predicate with
  | PyPredArg.notCallable _ => (st, Except.error PyError.invalidPredicate)
  | PyPredArg.nonePred => decorator package name StoredPred.nonePred arg st
  | PyPredArg.callable t f => decorator package name (StoredPred.callable t f) arg st

/-- One registration request: the arguments of one decorator
application. -/
structure RegCall where
  package : String
  name : Option String
  predicate : PyPredArg
  arg : PyArg

/-- The `__name__` the decorator would read off the argument. -/
def argName : PyArg → String
  | PyArg.cls c => c.name
  | PyArg.notClass r => r

/-- The registered name a request produces:
`package + "." + (name or arg.__name__)`. -/
def callName (r : RegCall) : String :=
  r.package ++ "." ++ (r.name.getD (argName r.arg))

/-- Run a sequence of registrations, failing (to `none`) as soon as one
raises. -/
def runAll : List RegCall → Registry → Option Registry
  | [], st => Option.some st
  | r :: rest, st =>
    match register_apply r.package r.name r.predicate r.arg st with
    | (st', Except.ok _) => runAll rest st'
    | (_, Except.error _) => Option.none

/-- Invariant I1 of the spec, in its strong form: `_REGISTERED_NAMES`
is exactly the key sequence of `_CLASS_REGISTRY`, without duplicates. -/
def Inv (st : Registry) : Prop :=
  st.registeredNames = st.classRegistry.map Prod.fst ∧ st.registeredNames.Nodup

/-! ### Helper lemmas -/

theorem lookup_eq_none_iff (l : List (String × StoredPred × PyClass)) (n : String) :
    lookup l n = Option.none ↔ n ∉ l.map Prod.fst := by
  induction l with
  | nil => simp [lookup]
  | cons kv rest ih =>
    obtain ⟨k, v⟩ := kv
    by_cases h : k = n
    · subst h
      simp [lookup]
    · simp only [lookup, if_neg h, List.map_cons, List.mem_cons, ih]
      constructor
      · rintro hmem (rfl | hm)
        · exact h rfl
        · exact hmem hm
      · intro hall hm
        exact hall (Or.inr hm)

theorem lookup_append_of_none (l : List (String × StoredPred × PyClass)) (n : String)
    (e : StoredPred × PyClass) (h : lookup l n = Option.none) :
    lookup (l ++ [(n, e)]) n = Option.some e := by
  induction l with
  | nil => simp [lookup]
  | cons kv rest ih =>
    obtain ⟨k, v⟩ := kv
    by_cases hk : k = n
    · simp [lookup, hk] at h
    · simp only [lookup, if_neg hk] at h ⊢
      exact ih h

theorem lookup_append_other (l : List (String × StoredPred × PyClass)) (n m : String)
    (e : StoredPred × PyClass) (h : m ≠ n) :
    lookup (l ++ [(n, e)]) m = lookup l m := by
  induction l with
  | nil =>
    have hnm : n ≠ m := fun hc => h hc.symm
    simp [lookup, hnm]
  | cons kv rest ih =>
    obtain ⟨k, v⟩ := kv
    by_cases hk : k = m
    · simp [lookup, hk]
    · simp only [List.cons_append, lookup, if_neg hk]
      exact ih

/-- The name-resolution loop never writes the state back changed. -/
theorem run_fst (l : List String) (st : Registry) (obj : PyObj) :
    (get_registered_name_run l st obj).1 = st := by
  induction l with
  | nil => rfl
  | cons nm rest ih =>
    simp only [get_registered_name_run]
    cases h : lookup st.classRegistry nm with
    | none => rfl
    | some pc =>
      by_cases h1 : (!(StoredPred.isTruthy pc.1) && decide (obj.ty = pc.2.id)) = true
      · simp [h1]
      · by_cases h2 : (StoredPred.isTruthy pc.1 && PyVal.truthy (StoredPred.call pc.1 obj)) = true
        · simp [h1, h2]
        · simp [h1, h2, ih]

/-- Scanning names whose entries exist but do not match just skips
them. -/
theorem run_skip (l l' : List String) (st : Registry) (obj : PyObj)
    (h : ∀ m ∈ l, ∃ e, lookup st.classRegistry m = Option.some e ∧ entryMatch e obj = false) :
    get_registered_name_run (l ++ l') st obj = get_registered_name_run l' st obj := by
  induction l with
  | nil => rfl
  | cons nm rest ih =>
    obtain ⟨e, he, hm⟩ := h nm (List.mem_cons_self nm rest)
    have hrest : ∀ m ∈ rest, ∃ e, lookup st.classRegistry m = Option.some e ∧
        entryMatch e obj = false := fun m hmem => h m (List.mem_cons_of_mem nm hmem)
    simp only [entryMatch, Bool.or_eq_false_iff] at hm
    simp only [List.cons_append, get_registered_name_run, he, hm.1, hm.2, Bool.false_eq_true,
      if_false]
    exact ih hrest

/-- If every scanned name has an entry, the scan returns without
raising. -/
theorem run_total (l : List String) (st : Registry) (obj : PyObj)
    (h : ∀ m ∈ l, (lookup st.classRegistry m).isSome) :
    ∃ r, (get_registered_name_run l st obj).2 = Except.ok r := by
  induction l with
  | nil => exact ⟨Option.none, rfl⟩
  | cons nm rest ih =>
    have hnm := h nm (List.mem_cons_self nm rest)
    cases he : lookup st.classRegistry nm with
    | none => rw [he] at hnm; simp at hnm
    | some pc =>
      simp only [get_registered_name_run, he]
      by_cases h1 : (!(StoredPred.isTruthy pc.1) && decide (obj.ty = pc.2.id)) = true
      · exact ⟨Option.some nm, by simp [h1]⟩
      · by_cases h2 : (StoredPred.isTruthy pc.1 && PyVal.truthy (StoredPred.call pc.1 obj)) = true
        · exact ⟨Option.some nm, by simp [h1, h2]⟩
        · simp only [h1, h2, Bool.false_eq_true, if_false]
          exact ih (fun m hmem => h m (List.mem_cons_of_mem nm hmem))

/-- Characterization of a successful registration: with a valid
predicate, a class argument, and a fresh name, the state is extended by
exactly one entry and one name. -/
theorem register_ok (package : String) (name : Option String) (sp : StoredPred)
    (c : PyClass) (st : Registry)
    (h : lookup st.classRegistry (package ++ "." ++ name.getD c.name) = Option.none) :
    register_apply package name (ofStored sp) (PyArg.cls c) st =
      (⟨st.classRegistry ++ [(package ++ "." ++ name.getD c.name, (sp, c))],
        st.registeredNames ++ [package ++ "." ++ name.getD c.name]⟩,
       Except.ok c) := by
  cases sp with
  | nonePred => simp [register_apply, ofStored, decorator, h]
  | callable t f => simp [register_apply, ofStored, decorator, h]

/-- The stored form of a predicate argument that passed validation (the
`notCallable` branch is never stored: `register_apply` raises first). -/
def toStored : PyPredArg → StoredPred
  | PyPredArg.nonePred => StoredPred.nonePred
  | PyPredArg.callable t f => StoredPred.callable t f
  | PyPredArg.notCallable _ => StoredPred.nonePred

/-- Inversion of a successful registration: the argument was a class,
the name fresh, and the new state is the old one extended by the new
entry. -/
theorem register_ok_inv (package : String) (name : Option String) (predicate : PyPredArg)
    (arg : PyArg) (st st' : Registry) (c : PyClass)
    (h : register_apply package name predicate arg st = (st', Except.ok c)) :
    arg = PyArg.cls c ∧
    lookup st.classRegistry (package ++ "." ++ name.getD c.name) = Option.none ∧
    st' = ⟨st.classRegistry ++ [(package ++ "." ++ name.getD c.name, (toStored predicate, c))],
           st.registeredNames ++ [package ++ "." ++ name.getD c.name]⟩ := by
  cases predicate with
  | notCallable v => simp [register_apply] at h
  | nonePred =>
    cases arg with
    | notClass r => simp [register_apply, decorator] at h
    | cls c' =>
      simp only [register_apply, decorator] at h
      cases hl : lookup st.classRegistry (package ++ "." ++ name.getD c'.name) with
      | some pc => rw [hl] at h; simp at h
      | none =>
        rw [hl] at h
        simp only [Prod.mk.injEq, Except.ok.injEq] at h
        obtain ⟨hst, rfl⟩ := h
        exact ⟨rfl, hl, hst.symm⟩
  | callable t f =>
    cases arg with
    | notClass r => simp [register_apply, decorator] at h
    | cls c' =>
      simp only [register_apply, decorator] at h
      cases hl : lookup st.classRegistry (package ++ "." ++ name.getD c'.name) with
      | some pc => rw [hl] at h; simp at h
      | none =>
        rw [hl] at h
        simp only [Prod.mk.injEq, Except.ok.injEq] at h
        obtain ⟨hst, rfl⟩ := h
        exact ⟨rfl, hl, hst.symm⟩

/-- A failed registration hands the state back unchanged (every `raise`
in the source precedes the mutations). -/
theorem register_error_state (package : String) (name : Option String)
    (predicate : PyPredArg) (arg : PyArg) (st : Registry) (e : PyError)
    (h : (register_apply package name predicate arg st).2 = Except.error e) :
    (register_apply package name predicate arg st).1 = st := by
  cases predicate with
  | notCallable v => rfl
  | nonePred =>
    cases arg with
    | notClass r => rfl
    | cls c =>
      simp only [register_apply, decorator] at h ⊢
      cases hl : lookup st.classRegistry (package ++ "." ++ name.getD c.name) with
      | some pc => simp [hl]
      | none => rw [hl] at h; simp at h
  | callable t f =>
    cases arg with
    | notClass r => rfl
    | cls c =>
      simp only [register_apply, decorator] at h ⊢
      cases hl : lookup st.classRegistry (package ++ "." ++ name.getD c.name) with
      | some pc => simp [hl]
      | none => rw [hl] at h; simp at h

/-- A successful registration preserves invariant I1 and appends exactly
the new registered name. -/
theorem Inv_register_ok (package : String) (name : Option String) (predicate : PyPredArg)
    (arg : PyArg) (st st' : Registry) (c : PyClass)
    (hInv : Inv st)
    (h : register_apply package name predicate arg st = (st', Except.ok c)) :
    Inv st' ∧ st'.registeredNames =
      st.registeredNames ++ [package ++ "." ++ name.getD c.name] := by
  obtain ⟨-, hl, hst⟩ := register_ok_inv _ _ _ _ _ _ _ h
  obtain ⟨hkeys, hnodup⟩ := hInv
  have hnotmem : (package ++ "." ++ name.getD c.name) ∉ st.registeredNames := by
    rw [hkeys]
    exact (lookup_eq_none_iff _ _).mp hl
  subst hst
  refine ⟨⟨?_, ?_⟩, rfl⟩
  · simp [hkeys]
  · simp [List.nodup_append, hnodup, hnotmem]

/-- Running a sequence of successful registrations appends exactly the
computed registered names, and preserves invariant I1. -/
theorem runAll_names (reqs : List RegCall) (st st' : Registry)
    (hInv : Inv st) (h : runAll reqs st = Option.some st') :
    st'.registeredNames = st.registeredNames ++ reqs.map callName ∧ Inv st' := by
  induction reqs generalizing st with
  | nil =>
    rw [runAll] at h
    obtain rfl := Option.some.inj h
    simp [hInv]
  | cons r rest ih =>
    rw [runAll] at h
    cases hreg : register_apply r.package r.name r.predicate r.arg st with
    | mk st1 res =>
      rw [hreg] at h
      cases res with
      | error e => exact Option.noConfusion h
      | ok c =>
        obtain ⟨hInv1, hnames1⟩ := Inv_register_ok _ _ _ _ _ _ _ hInv hreg
        obtain ⟨hnames', hInv'⟩ := ih st1 hInv1 h
        refine ⟨?_, hInv'⟩
        obtain ⟨harg, -, -⟩ := register_ok_inv _ _ _ _ _ _ _ hreg
        rw [hnames', hnames1, List.append_assoc, List.singleton_append, List.map_cons]
        rw [callName, harg]
        rfl

/-- The class-resolution operation hands the state back unchanged. -/
theorem class_fst (st : Registry) (registered_name : String) :
    (get_registered_class st registered_name).1 = st := by
  unfold get_registered_class
  cases get_registered_class_run st registered_name with
  | ok c => rfl
  | error e => cases e <;> rfl

/-! ### Concrete instances used by the witnesses -/

def classA : PyClass := ⟨0, "A"⟩

def classB : PyClass := ⟨1, "B"⟩

def objA : PyObj := ⟨0⟩

def objC : PyObj := ⟨2⟩

def predAlwaysTrue : PyObj → PyVal := fun _ => PyVal.boolV true

/-- Predicate true exactly on instances of runtime type 1 (an
`isinstance`-style check for `classB`). -/
def predIsB : PyObj → PyVal := fun o => PyVal.boolV (decide (o.ty = 1))

/-- The registry after registering `classA` under `"Example.A"` with no
predicate, starting from the empty registry. -/
def st1c : Registry := ⟨[("Example.A", (StoredPred.nonePred, classA))], ["Example.A"]⟩

/-- State `st1c` after additionally registering `classB` under
`"Example.B"` with an always-true predicate. -/
def st2c : Registry :=
  ⟨[("Example.A", (StoredPred.nonePred, classA)),
    ("Example.B", (StoredPred.callable true predAlwaysTrue, classB))],
   ["Example.A", "Example.B"]⟩

/-- State `st1c` after additionally registering `classB` under
`"Example.B"` with a predicate that is falsy on instances of
`classA`. -/
def st3c : Registry :=
  ⟨[("Example.A", (StoredPred.nonePred, classA)),
    ("Example.B", (StoredPred.callable true predIsB, classB))],
   ["Example.A", "Example.B"]⟩

/-- The two registration requests that produce `st2c` from the empty
registry. -/
def reqsC : List RegCall :=
  [⟨"Example", Option.none, PyPredArg.nonePred, PyArg.cls classA⟩,
   ⟨"Example", Option.none, PyPredArg.callable true predAlwaysTrue, PyArg.cls classB⟩]

/-! ### The claims -/

/-- Claim C1: shadowing by reverse-priority scan.  If type `A` is
registered under name `N1` with no predicate and afterwards an entry is
registered under `N2` with a predicate returning a truthy value on a
direct instance of `A`, then `get_registered_name` on that instance
returns `N2` (and `N2 ≠ N1`): the registration order is scanned in
reverse, so the later registration is checked first. -/
theorem shadowing_reverse_scan (st0 st1 st2 : Registry)
    (p1 p2 : String) (n1 n2 : Option String) (A B : PyClass)
    (f : PyObj → PyVal) (obj : PyObj)
    (h1 : register_apply p1 n1 PyPredArg.nonePred (PyArg.cls A) st0 = (st1, Except.ok A))
    (h2 : register_apply p2 n2 (PyPredArg.callable true f) (PyArg.cls B) st1 =
          (st2, Except.ok B))
    (hobj : obj.ty = A.id)
    (hf : PyVal.truthy (f obj) = true) :
    (get_registered_name st2 obj).2 =
      Except.ok (Option.some (p2 ++ "." ++ n2.getD B.name)) ∧
    p2 ++ "." ++ n2.getD B.name ≠ p1 ++ "." ++ n1.getD A.name := by
  obtain ⟨-, hl2, hst2⟩ := register_ok_inv _ _ _ _ _ _ _ h2
  obtain ⟨-, hl1, hst1⟩ := register_ok_inv _ _ _ _ _ _ _ h1
  have hmem1 : lookup st1.classRegistry (p1 ++ "." ++ n1.getD A.name) =
      Option.some (StoredPred.nonePred, A) := by
    rw [hst1]
    exact lookup_append_of_none _ _ _ hl1
  have hne : p2 ++ "." ++ n2.getD B.name ≠ p1 ++ "." ++ n1.getD A.name := by
    intro he
    rw [he, hmem1] at hl2
    exact Option.noConfusion hl2
  refine ⟨?_, hne⟩
  rw [hst2]
  simp only [get_registered_name, get_registered_name_run, List.reverse_append,
    List.reverse_cons, List.reverse_nil, List.nil_append, List.singleton_append,
    lookup_append_of_none _ _ _ hl2, toStored, StoredPred.isTruthy, StoredPred.call,
    Bool.not_true, Bool.false_and, Bool.true_and, hf, Bool.false_eq_true, if_false, if_true]

/-- Witness for C1 at concrete inputs: register `classA` as
`"Example.A"` with no predicate, then `classB` as `"Example.B"` with an
always-true predicate; resolving an instance of `classA` yields
`"Example.B"`. -/
theorem shadowing_reverse_scan_witness :
    (get_registered_name st2c objA).2 =
      Except.ok (Option.some ("Example" ++ "." ++ (Option.none : Option String).getD
        classB.name)) ∧
    ("Example" ++ "." ++ (Option.none : Option String).getD classB.name) ≠
      ("Example" ++ "." ++ (Option.none : Option String).getD classA.name) :=
  shadowing_reverse_scan emptyRegistry st1c st2c "Example" "Example" Option.none Option.none
    classA classB predAlwaysTrue objA rfl rfl rfl rfl

/-- Claim C2: exact-type default match.  An entry registered without a
predicate matches only instances whose exact runtime type is the
registered class; with only that entry registered, an instance of a
strict subclass (a different runtime type) resolves to no match. -/
theorem exact_type_default_match (package : String) (name : Option String) (A : PyClass)
    (st : Registry) (obj objSub : PyObj)
    (h : register_apply package name PyPredArg.nonePred (PyArg.cls A) emptyRegistry =
          (st, Except.ok A))
    (hA : obj.ty = A.id) (hB : objSub.ty ≠ A.id) :
    (get_registered_name st obj).2 =
      Except.ok (Option.some (package ++ "." ++ name.getD A.name)) ∧
    (get_registered_name st objSub).2 = Except.ok Option.none := by
  obtain ⟨-, -, hst⟩ := register_ok_inv _ _ _ _ _ _ _ h
  rw [hst]
  constructor
  · simp [get_registered_name, get_registered_name_run, emptyRegistry, lookup, toStored,
      StoredPred.isTruthy, hA]
  · simp [get_registered_name, get_registered_name_run, emptyRegistry, lookup, toStored,
      StoredPred.isTruthy, hB]

/-- Witness for C2: with only `"Example.A"` (class id 0) registered, an
instance of type id 0 resolves to `"Example.A"` and an instance of type
id 2 (a distinct runtime type, e.g. a strict subclass) resolves to no
match. -/
theorem exact_type_default_match_witness :
    (get_registered_name st1c objA).2 =
      Except.ok (Option.some ("Example" ++ "." ++ (Option.none : Option String).getD
        classA.name)) ∧
    (get_registered_name st1c objC).2 = Except.ok Option.none :=
  exact_type_default_match "Example" Option.none classA st1c objA objC rfl rfl (by decide)

/-- Claim C3: uniqueness and duplicate atomicity.  When the registered
name computed for a registration is already present in the registry, the
registration raises `DuplicateRegistration` (a `ValueError` naming the
existing entry's predicate and class) and returns the registry state
exactly unchanged, for any valid predicate and any class. -/
theorem duplicate_registration_atomic (package : String) (name : Option String)
    (sp : StoredPred) (c : PyClass) (st : Registry) (p0 : StoredPred) (c0 : PyClass)
    (h : lookup st.classRegistry (package ++ "." ++ name.getD c.name) =
          Option.some (p0, c0)) :
    register_apply package name (ofStored sp) (PyArg.cls c) st =
      (st, Except.error (PyError.duplicateRegistration
        (package ++ "." ++ name.getD c.name) p0 c0)) := by
  cases sp <;> simp [register_apply, ofStored, decorator, h]

/-- Witness for C3: `"Example.A"` is registered in `st1c`; registering
`classB` under the explicit name `"A"` in package `"Example"` fails with
`DuplicateRegistration` reporting the existing `(predicate, class)`
entry, and the state is returned unchanged. -/
theorem duplicate_registration_atomic_witness :
    register_apply "Example" (Option.some "A") (ofStored StoredPred.nonePred)
      (PyArg.cls classB) st1c =
      (st1c, Except.error (PyError.duplicateRegistration
        ("Example" ++ "." ++ (Option.some "A").getD classB.name)
        StoredPred.nonePred classA)) :=
  duplicate_registration_atomic "Example" (Option.some "A") StoredPred.nonePred classB st1c
    StoredPred.nonePred classA rfl

/-- Claim C7: `InvalidArgument` rejection with no partial state.
Registration with a non-None non-callable predicate fails with the
predicate `ValueError`, and registration of a non-class (with any valid
predicate) fails with the class `ValueError`; in both cases the returned
registry state is the input state, untouched. -/
theorem invalid_argument_no_partial_state :
    (∀ (package : String) (name : Option String) (v : PyVal) (arg : PyArg) (st : Registry),
      register_apply package name (PyPredArg.notCallable v) arg st =
        (st, Except.error PyError.invalidPredicate)) ∧
    (∀ (package : String) (name : Option String) (sp : StoredPred) (r : String)
      (st : Registry),
      register_apply package name (ofStored sp) (PyArg.notClass r) st =
        (st, Except.error (PyError.notAClass r))) := by
  constructor
  · intro package name v arg st
    rfl
  · intro package name sp r st
    cases sp <;> rfl

/-- Claim C8: name construction.  A successful registration stores and
appends exactly the string `package ++ "." ++ class_name`, where
`class_name` is the explicit `name` argument if present and otherwise
the class's own `__name__`. -/
theorem name_construction (package : String) (name : Option String) (sp : StoredPred)
    (c : PyClass) (st : Registry)
    (h : lookup st.classRegistry (package ++ "." ++ name.getD c.name) = Option.none) :
    (register_apply package name (ofStored sp) (PyArg.cls c) st).1.registeredNames =
      st.registeredNames ++ [package ++ "." ++ name.getD c.name] ∧
    (register_apply package name (ofStored sp) (PyArg.cls c) st).1.classRegistry =
      st.classRegistry ++ [(package ++ "." ++ name.getD c.name, (sp, c))] := by
  rw [register_ok package name sp c st h]
  exact ⟨rfl, rfl⟩

/-- Witness for C8: registering `classB` (with `name = None`, so the
class name `"B"` is used) in package `"Example"` on `st1c` appends
exactly `"Example" ++ "." ++ "B"` to both components. -/
theorem name_construction_witness :
    (register_apply "Example" Option.none (ofStored StoredPred.nonePred)
      (PyArg.cls classB) st1c).1.registeredNames =
      st1c.registeredNames ++
        ["Example" ++ "." ++ (Option.none : Option String).getD classB.name] ∧
    (register_apply "Example" Option.none (ofStored StoredPred.nonePred)
      (PyArg.cls classB) st1c).1.classRegistry =
      st1c.classRegistry ++
        [("Example" ++ "." ++ (Option.none : Option String).getD classB.name,
          (StoredPred.nonePred, classB))] :=
  name_construction "Example" Option.none StoredPred.nonePred classB st1c rfl

/-- Claim C5: round trip.  A name successfully registered with a class
resolves back to that class via `get_registered_class`; and an instance
whose exact runtime type is the class of a predicate-free entry, with no
later-registered entry matching it, resolves via `get_registered_name`
to that entry's name. -/
theorem round_trip :
    (∀ (package : String) (name : Option String) (predicate : PyPredArg) (arg : PyArg)
      (st st' : Registry) (c : PyClass),
      register_apply package name predicate arg st = (st', Except.ok c) →
      (get_registered_class st' (package ++ "." ++ name.getD c.name)).2 =
        Except.ok (Option.some c)) ∧
    (∀ (st : Registry) (c : PyClass) (obj : PyObj) (l1 l2 : List String) (n : String),
      st.registeredNames = l1 ++ n :: l2 →
      lookup st.classRegistry n = Option.some (StoredPred.nonePred, c) →
      obj.ty = c.id →
      (∀ m ∈ l2, ∃ e, lookup st.classRegistry m = Option.some e ∧
        entryMatch e obj = false) →
      (get_registered_name st obj).2 = Except.ok (Option.some n)) := by
  constructor
  · intro package name predicate arg st st' c h
    obtain ⟨-, hl, hst⟩ := register_ok_inv _ _ _ _ _ _ _ h
    rw [hst]
    simp [get_registered_class, get_registered_class_run, lookup_append_of_none _ _ _ hl]
  · intro st c obj l1 l2 n hnames hl hty hskip
    have hrw : get_registered_name st obj =
        get_registered_name_run (l2.reverse ++ (n :: l1.reverse)) st obj := by
      unfold get_registered_name
      rw [hnames]
      simp [List.reverse_append, List.reverse_cons, List.append_assoc]
    rw [hrw, run_skip _ _ _ _ (fun m hm => hskip m (List.mem_reverse.mp hm))]
    simp [get_registered_name_run, hl, StoredPred.isTruthy, hty]

/-- Witness for C5: `"Example.A"` registered with `classA` from the
empty registry resolves back to `classA`; and in `st3c` (where the
later entry `"Example.B"` has a predicate falsy on `objA`),
`objA` resolves to `"Example.A"`. -/
theorem round_trip_witness :
    (get_registered_class st1c ("Example" ++ "." ++ (Option.none : Option String).getD
      classA.name)).2 = Except.ok (Option.some classA) ∧
    (get_registered_name st3c objA).2 = Except.ok (Option.some "Example.A") :=
  ⟨round_trip.1 "Example" Option.none PyPredArg.nonePred (PyArg.cls classA)
      emptyRegistry st1c classA rfl,
   round_trip.2 st3c classA objA [] ["Example.B"] "Example.A" rfl rfl rfl
      (by
        intro m hm
        have hmB : m = "Example.B" := by simpa using hm
        subst hmB
        exact ⟨(StoredPred.callable true predIsB, classB), rfl, rfl⟩)⟩

/-- Claim C6: the resolve operations never raise.
`get_registered_class` returns normally on every input (absence as
`None`), and `get_registered_name` returns normally on every state
whose registered names all have entries (every reachable state), with
absence of a match reported as `None`, never as an exception. -/
theorem resolve_never_raises :
    (∀ (st : Registry) (registered_name : String),
      ∃ r, get_registered_class st registered_name = (st, Except.ok r)) ∧
    (∀ (st : Registry) (registered_name : String),
      lookup st.classRegistry registered_name = Option.none →
      get_registered_class st registered_name = (st, Except.ok Option.none)) ∧
    (∀ (st : Registry) (obj : PyObj),
      (∀ m ∈ st.registeredNames, (lookup st.classRegistry m).isSome) →
      ∃ r, (get_registered_name st obj).2 = Except.ok r) ∧
    (∀ (st : Registry) (obj : PyObj),
      (∀ m ∈ st.registeredNames, ∃ e, lookup st.classRegistry m = Option.some e ∧
        entryMatch e obj = false) →
      get_registered_name st obj = (st, Except.ok Option.none)) := by
  refine ⟨?_, ?_, ?_, ?_⟩
  · intro st registered_name
    unfold get_registered_class get_registered_class_run
    cases lookup st.classRegistry registered_name with
    | some pc => exact ⟨Option.some pc.2, rfl⟩
    | none => exact ⟨Option.none, rfl⟩
  · intro st registered_name h
    unfold get_registered_class get_registered_class_run
    rw [h]
  · intro st obj h
    exact run_total _ _ _ (fun m hm => h m (List.mem_reverse.mp hm))
  · intro st obj h
    unfold get_registered_name
    have hrw : st.registeredNames.reverse = st.registeredNames.reverse ++ [] :=
      (List.append_nil _).symm
    rw [hrw, run_skip _ _ _ _ (fun m hm => h m (List.mem_reverse.mp hm))]
    rfl

/-- Witness for C6: in `st1c`, resolving the unregistered name
`"Nope"` and resolving the unmatched instance `objC` both return
`None` normally. -/
theorem resolve_never_raises_witness :
    get_registered_class st1c "Nope" = (st1c, Except.ok Option.none) ∧
    get_registered_name st1c objC = (st1c, Except.ok Option.none) :=
  ⟨resolve_never_raises.2.1 st1c "Nope" rfl,
   resolve_never_raises.2.2.2 st1c objC
    (by
      intro m hm
      have hmA : m = "Example.A" := by simpa [st1c] using hm
      subst hmA
      exact ⟨(StoredPred.nonePred, classA), rfl, rfl⟩)⟩

/-- Claim C9: the resolve operations are read-only — both hand back the
registry state (`_CLASS_REGISTRY` and `_REGISTERED_NAMES`) exactly
unchanged, on every input. -/
theorem resolve_reads_only (st : Registry) (obj : PyObj) (registered_name : String) :
    (get_registered_name st obj).1 = st ∧
    (get_registered_class st registered_name).1 = st :=
  ⟨run_fst _ _ _, class_fst _ _⟩

/-- Claim C10: truthiness dispatch.  `get_registered_name` selects the
matching mode by the truthiness of the stored predicate: a falsy stored
predicate (here, a falsy callable) is matched by exact type equality
regardless of the function it wraps, while a truthy predicate matches
exactly when its result is truthy — any truthy `PyVal`, not only the
boolean `True`, as the third conjunct shows with the integer `2`. -/
theorem truthiness_dispatch (n : String) (f : PyObj → PyVal) (c : PyClass) (obj : PyObj) :
    ((get_registered_name ⟨[(n, (StoredPred.callable false f, c))], [n]⟩ obj).2 =
      Except.ok (if obj.ty = c.id then Option.some n else Option.none)) ∧
    ((get_registered_name ⟨[(n, (StoredPred.callable true f, c))], [n]⟩ obj).2 =
      Except.ok (if PyVal.truthy (f obj) then Option.some n else Option.none)) ∧
    ((get_registered_name
        ⟨[(n, (StoredPred.callable true (fun _ => PyVal.intV 2), c))], [n]⟩ obj).2 =
      Except.ok (Option.some n)) := by
  refine ⟨?_, ?_, ?_⟩
  · by_cases h : obj.ty = c.id
    · simp [get_registered_name, get_registered_name_run, lookup, StoredPred.isTruthy,
        StoredPred.call, h]
    · simp [get_registered_name, get_registered_name_run, lookup, StoredPred.isTruthy,
        StoredPred.call, h]
  · by_cases h : PyVal.truthy (f obj) = true
    · simp [get_registered_name, get_registered_name_run, lookup, StoredPred.isTruthy,
        StoredPred.call, h]
    · simp [get_registered_name, get_registered_name_run, lookup, StoredPred.isTruthy,
        StoredPred.call, h]
  · simp [get_registered_name, get_registered_name_run, lookup, StoredPred.isTruthy,
      StoredPred.call, PyVal.truthy]

/-- Claim C4: registry state invariant I1.  After any sequence of
successful registrations from the empty registry, the registration
order is exactly the sequence of computed names, the keys of the
entries mapping are exactly the same sequence, and the order is
duplicate-free; moreover every operation — any registration attempt
(succeeding or failing) and both resolve operations — preserves
invariant I1. -/
theorem registry_order_invariant :
    (∀ (reqs : List RegCall) (st : Registry),
      runAll reqs emptyRegistry = Option.some st →
      st.registeredNames = reqs.map callName ∧
      st.classRegistry.map Prod.fst = reqs.map callName ∧
      st.registeredNames.Nodup) ∧
    (∀ (package : String) (name : Option String) (predicate : PyPredArg) (arg : PyArg)
      (st : Registry), Inv st → Inv (register_apply package name predicate arg st).1) ∧
    (∀ (st : Registry) (obj : PyObj), Inv st → Inv (get_registered_name st obj).1) ∧
    (∀ (st : Registry) (registered_name : String), Inv st →
      Inv (get_registered_class st registered_name).1) := by
  refine ⟨?_, ?_, ?_, ?_⟩
  · intro reqs st h
    have hInv0 : Inv emptyRegistry := ⟨rfl, List.nodup_nil⟩
    obtain ⟨hnames, hInv⟩ := runAll_names reqs emptyRegistry st hInv0 h
    have hn : st.registeredNames = reqs.map callName := by
      simpa [emptyRegistry] using hnames
    refine ⟨hn, ?_, hn ▸ hInv.2⟩
    rw [← hInv.1]
    exact hn
  · intro package name predicate arg st hInv
    cases hreg : register_apply package name predicate arg st with
    | mk st1 res =>
      show Inv st1
      cases res with
      | ok c => exact (Inv_register_ok _ _ _ _ _ _ _ hInv hreg).1
      | error e =>
        have hstate := register_error_state package name predicate arg st e (by rw [hreg])
        rw [hreg] at hstate
        rw [show st1 = st from hstate]
        exact hInv
  · intro st obj hInv
    have h1 : (get_registered_name st obj).1 = st := run_fst _ _ _
    rw [h1]
    exact hInv
  · intro st registered_name hInv
    rw [class_fst]
    exact hInv

/-- Witness for C4: the two-registration sequence `reqsC` run from the
empty registry yields `st2c`, whose order and keys are exactly the two
computed names, without duplicates. -/
theorem registry_order_invariant_witness :
    st2c.registeredNames = reqsC.map callName ∧
    st2c.classRegistry.map Prod.fst = reqsC.map callName ∧
    st2c.registeredNames.Nodup :=
  registry_order_invariant.1 reqsC st2c rfl

end Registration
